import Mathlib

/-!
# Verification of the perspective-viewer-boxplot data pipeline

Shallow embedding of the boxplot plugin's data-to-statistics pipeline.
The repository carries two parallel implementations of the pipeline:

* the main plugin source (the webpack entry, here called `part001...`):
  functions `_processDataForBoxplot`, `_processRawData`,
  `_calculateBoxplotStats`;
* the React integration `src/js/react-proper.js` (here called `rp...`):
  the classifier inside `draw` and `calculateBoxplotStats`.

JavaScript values appearing in data rows are modelled by `JsVal`; numeric
coercion (unary `+` / ToNumber) by `toNum`, where `none` stands for NaN.
Rational numbers stand in for JS (double) numbers; infinities and
floating-point rounding are outside the model.
-/

/-- The column type tags of the schema supplied by the table engine.
`other` covers boolean, datetime and any unrecognized tag. -/
inductive ColType
  | string
  | date
  | integer
  | float
  | boolean
  | other
deriving DecidableEq, Repr

/-- A JavaScript value as it can occur in a row delivered by `to_json`:
`null`, `undefined` (also the result of a missing key), a number, a
string, or a boolean. -/
inductive JsVal
  | null
  | undefined
  | num (q : ℚ)
  | str (s : String)
  | bool (b : Bool)
deriving DecidableEq, Repr

/-- JavaScript truthiness of a value: `null`, `undefined`, `0`, the empty
string and `false` are falsy, everything else in the model is truthy. -/
def truthy : JsVal → Bool
  | .null => false
  | .undefined => false
  | .num q => q != 0
  | .str s => s != ""
  | .bool b => b

/-- Parse a run of decimal digits to a natural number; `none` when the
characters are not all digits or the run is empty. -/
def parseDigits : List Char → Option ℕ
  | [] => none
  | cs =>
    if cs.all Char.isDigit then
      some (cs.foldl (fun n c => 10 * n + (c.toNat - 48)) 0)
    else none

/-- Model of JS string-to-number coercion (ToNumber on strings),
restricted to plain decimal literals: the trimmed empty string is `0`; an
optional sign followed by digits with an optional fractional part parses
to its value; every other string is NaN (`none`).  Exotic forms (hex,
exponents, "Infinity") are outside the model. -/
def strToNum (s : String) : Option ℚ :=
  let t := s.trim
  if t = "" then some 0
  else
    let sign : ℚ := if t.startsWith "-" then -1 else 1
    let body := if t.startsWith "-" || t.startsWith "+" then t.drop 1 else t
    match body.splitOn "." with
    | [intPart] => (parseDigits intPart.toList).map (fun n => sign * n)
    | [intPart, fracPart] =>
      match (if intPart = "" then some 0 else parseDigits intPart.toList),
            parseDigits fracPart.toList with
      | some ip, some fp =>
        some (sign * ((ip : ℚ) + (fp : ℚ) / (10 : ℚ) ^ fracPart.length))
      | _, _ => none
    | _ => none

/-- JS numeric coercion `+x` (ToNumber). `none` models NaN:
`+null = 0`, `+undefined = NaN`, booleans map to 0/1, strings parse per
`strToNum`. -/
def toNum : JsVal → Option ℚ
  | .null => some 0
  | .undefined => none
  | .num q => some q
  | .str s => strToNum s
  | .bool b => some (if b then 1 else 0)

/-- A data row: a mapping from column name to value; a missing key reads
as `undefined`, exactly as property access does in JS. -/
def Row : Type := String → JsVal

/-- The schema: column name to declared type tag (missing columns read as
`other`). -/
def Schema : Type := String → ColType

/-- The parts of the view configuration the pipeline reads.  Absent
fields are modelled as the empty list (the source reads
`config.columns || []` and guards `config.group_by && ...`). -/
structure ViewConfig where
  columns : List String := []
  group_by : List String := []

/-- The numeric (metric) columns of the main plugin's `_processRawData`:
members of `config.columns` whose schema type is `float` or `integer`,
in `config.columns` order (the source pushes them in a `forEach`). -/
def part001numericColumns (schema : Schema) (cfg : ViewConfig) : List String :=
  cfg.columns.filter
    (fun col => decide (schema col = .float) || decide (schema col = .integer))

/-- The categorical columns of the main plugin's `_processRawData`: the
`else if (schema[col] === 'string')` branch, i.e. columns that are not
numeric and whose type is `string` (note: `date` is NOT included there),
in `config.columns` order. -/
def part001categoricalColumns (schema : Schema) (cfg : ViewConfig) : List String :=
  cfg.columns.filter
    (fun col => !(decide (schema col = .float) || decide (schema col = .integer)) &&
      decide (schema col = .string))

/-- The categorical columns of `react-proper.js`'s `draw`:
`columns.filter(col => columnTypes[col] === 'string' || columnTypes[col] === 'date')`. -/
def rpCategoricalColumns (schema : Schema) (cfg : ViewConfig) : List String :=
  cfg.columns.filter
    (fun col => decide (schema col = .string) || decide (schema col = .date))

/-- The numeric columns of `react-proper.js`'s `draw`:
`columns.filter(col => columnTypes[col] === 'integer' || columnTypes[col] === 'float')`. -/
def rpNumericColumns (schema : Schema) (cfg : ViewConfig) : List String :=
  cfg.columns.filter
    (fun col => decide (schema col = .integer) || decide (schema col = .float))

/-- The four-strategy grouping-column resolution, identical in both
implementations: (1) a non-empty `config.group_by` wins with its first
element (unvalidated); (2) exactly one categorical column is used; (3)
several categorical columns: the first is used (with a console warning);
(4) otherwise no grouping.  `none` models the JS `null`. -/
def resolveGroupBy (cats : List String) (cfg : ViewConfig) : Option String :=
  if cfg.group_by.length > 0 then cfg.group_by.head?
  else if cats.length = 1 then cats.head?
  else if cats.length > 1 then cats.head?
  else none

/-- JS `Array.prototype.sort(d3.ascending)` on (non-NaN) numbers: some
stable ascending sort; on a linear order every correct sort returns the
same list, so insertion sort is a faithful model. -/
def jsSort (l : List ℚ) : List ℚ :=
  List.insertionSort (fun a b => a ≤ b) l

/-- d3.quantile on a sorted array (d3's quantileSorted with identity
accessor): returns the first element for `p ≤ 0` or fewer than two
elements, the last for `p ≥ 1`, else linear interpolation at continuous
rank `i = (n-1)p` between the elements at `⌊i⌋` and `⌊i⌋+1`.  d3 returns
undefined on an empty array; callers only pass non-empty arrays, here the
empty case yields the junk value 0. -/
def quantileSorted (v : List ℚ) (p : ℚ) : ℚ :=
  if v.length = 0 then 0
  else if p ≤ 0 ∨ v.length < 2 then v.headD 0
  else if 1 ≤ p then v.getD (v.length - 1) 0
  else
    let i : ℚ := ((v.length - 1 : ℕ) : ℚ) * p
    let i0 : ℕ := (⌊i⌋).toNat
    let v0 := v.getD i0 0
    let v1 := v.getD (i0 + 1) 0
    v0 + (v1 - v0) * (i - (i0 : ℚ))

/-- d3.mean over a list of (non-NaN) numbers: the arithmetic mean.
Callers only pass non-empty lists; the empty case yields junk 0. -/
def jsMean (l : List ℚ) : ℚ := l.sum / (l.length : ℚ)

/-- The statistics record produced for one boxplot. -/
structure BoxStats where
  min : ℚ
  q1 : ℚ
  median : ℚ
  q3 : ℚ
  max : ℚ
  mean : ℚ
  outliers : List ℚ
  count : ℕ
deriving DecidableEq, Repr

/-- The main plugin's `_calculateBoxplotStats`.  Returns `none` (JS
`null`) on an empty input.  The `min`/`max` computations model the JS
expressions `sortedValues.find(v => v >= lowerFence) || sortedValues[0]`
and `[...sortedValues].reverse().find(v => v <= upperFence) ||
sortedValues[n-1]`: when the found value is `0` it is falsy and the
`||` falls through to the absolute extreme. -/
def part001calcStats (values : List ℚ) : Option BoxStats :=
  if values.length = 0 then none
  else
    let sortedValues := jsSort values
    let n := sortedValues.length
    let q1 := quantileSorted sortedValues (1/4)
    let median := quantileSorted sortedValues (1/2)
    let q3 := quantileSorted sortedValues (3/4)
    let mean := jsMean sortedValues
    let iqr := q3 - q1
    let lowerFence := q1 - 3/2 * iqr
    let upperFence := q3 + 3/2 * iqr
    let minV :=
      match sortedValues.find? (fun v => decide (lowerFence ≤ v)) with
      | some v => if v = 0 then sortedValues.headD 0 else v
      | none => sortedValues.headD 0
    let maxV :=
      match sortedValues.reverse.find? (fun v => decide (v ≤ upperFence)) with
      | some v => if v = 0 then sortedValues.getD (n - 1) 0 else v
      | none => sortedValues.getD (n - 1) 0
    let outliers :=
      sortedValues.filter (fun v => decide (v < lowerFence) || decide (v > upperFence))
    some ⟨minV, q1, median, q3, maxV, mean, outliers, n⟩

/-- `react-proper.js`'s `calculateBoxplotStats`: same quantiles and
fences, but `min`/`max` come from the filtered non-outlier list, with the
absolute extremes only when that list is empty.  The source has no empty
guard (its caller guards); the empty case yields junk values. -/
def rpCalcStats (values : List ℚ) : BoxStats :=
  let sorted := jsSort values
  let n := sorted.length
  let q1 := quantileSorted sorted (1/4)
  let median := quantileSorted sorted (1/2)
  let q3 := quantileSorted sorted (3/4)
  let iqr := q3 - q1
  let lowerFence := q1 - 3/2 * iqr
  let upperFence := q3 + 3/2 * iqr
  let outliers :=
    sorted.filter (fun v => decide (v < lowerFence) || decide (v > upperFence))
  let nonOutliers :=
    sorted.filter (fun v => decide (lowerFence ≤ v) && decide (v ≤ upperFence))
  let minV := if nonOutliers.length > 0 then nonOutliers.headD 0 else sorted.headD 0
  let maxV :=
    if nonOutliers.length > 0 then nonOutliers.getD (nonOutliers.length - 1) 0
    else sorted.getD (n - 1) 0
  let mean := jsMean sorted
  ⟨minV, q1, median, q3, maxV, mean, outliers, n⟩

/-- One element of the processed-data array built by `_processRawData`. -/
structure BoxRecord where
  label : JsVal
  metric : String
  metricIndex : ℕ
  groupKey : JsVal
  values : List ℚ
  stats : Option BoxStats
deriving DecidableEq, Repr

/-- The grouping key of a row in the main plugin:
`d[groupByColumn] || 'Unknown'` — the raw column value when truthy, else
the literal string "Unknown". -/
def part001groupKeyFn (g : String) (r : Row) : JsVal :=
  if truthy (r g) then r g else .str "Unknown"

/-- First occurrences of a list's elements, in order of first occurrence
(later duplicates removed). -/
def firstKeys {α} [DecidableEq α] : List α → List α
  | [] => []
  | k :: ks => k :: (firstKeys ks).filter (fun x => !decide (x = k))

/-- Model of `d3.group(rows, key)` (an InternMap): one entry per distinct
key, keys in first-occurrence order, each bucket holding its rows in
input order. -/
def groupByKey {κ} [DecidableEq κ] (key : Row → κ) (rows : List Row) :
    List (κ × List Row) :=
  (firstKeys (rows.map key)).map (fun k => (k, rows.filter (fun r => decide (key r = k))))

/-- The per-cell retained values of the main plugin:
`.map(d => +d[metricCol]).filter(v => !isNaN(v) && v !== null && v !== undefined)`
— after the unary `+` the value is a number, so the null/undefined checks
are vacuous and exactly the NaN coercions are dropped — then
`.sort(d3.ascending)`. -/
def part001cellValues (metricCol : String) (rowsPart : List Row) : List ℚ :=
  jsSort (rowsPart.filterMap (fun r => toNum (r metricCol)))

/-- The body of the per-metric loop of `_processRawData`: build the cell's
retained sorted values and push a record exactly when at least one value
remains (`if (values.length > 0) result.push({...})`). -/
def part001cellRecord (label groupKey : JsVal) (metricCol : String) (metricIndex : ℕ)
    (rowsPart : List Row) : Option BoxRecord :=
  let values := part001cellValues metricCol rowsPart
  if values.length > 0 then
    some ⟨label, metricCol, metricIndex, groupKey, values, part001calcStats values⟩
  else none

/-- The main plugin's `_processRawData`: classify columns, resolve the
grouping column, then either group rows (`d3.group` with the falsy →
"Unknown" key) and emit one record per (group, metric) with at least one
retained value, or emit one record per metric over all rows. -/
def part001processRawData (rows : List Row) (cfg : ViewConfig) (schema : Schema) :
    List BoxRecord :=
  let numericColumns := part001numericColumns schema cfg
  let categoricalColumns := part001categoricalColumns schema cfg
  if numericColumns.length = 0 then []
  else
    match resolveGroupBy categoricalColumns cfg with
    | some groupByColumn =>
      (groupByKey (part001groupKeyFn groupByColumn) rows).flatMap (fun kv =>
        numericColumns.enum.filterMap (fun im =>
          part001cellRecord kv.1 kv.1 im.2 im.1 kv.2))
    | none =>
      numericColumns.enum.filterMap (fun im =>
        part001cellRecord (.str im.2) (.str im.2) im.2 im.1 rows)

/-- The main plugin's `_processDataForBoxplot`: empty input short-circuits
to an empty result, otherwise `_processRawData` runs. -/
def part001processDataForBoxplot (rows : List Row) (cfg : ViewConfig)
    (schema : Schema) : List BoxRecord :=
  if rows.length = 0 then [] else part001processRawData rows cfg schema

/-- The spec's description of the R-7 quantile: at fraction `f` the
continuous rank is `r = f × (n-1)` and the value interpolates between
`v[⌊r⌋]` and `v[⌈r⌉]`.  Stated from the spec's words, to be compared with
`quantileSorted` as translated from the source. -/
def interpAt (v : List ℚ) (f : ℚ) : ℚ :=
  let r : ℚ := f * ((v.length : ℚ) - 1)
  let lo := v.getD (⌊r⌋).toNat 0
  let hi := v.getD (⌈r⌉).toNat 0
  lo + (hi - lo) * (r - (⌊r⌋ : ℚ))

/-! ## Concrete example inputs used by counterexamples and witnesses -/

/-- A schema with a single float column "m". -/
def exSchemaM : Schema := fun c => if c = "m" then .float else .other

/-- A config selecting only the column "m", with no explicit grouping. -/
def exCfgM : ViewConfig := ⟨["m"], []⟩

/-- A row whose "m" value is the JS `null`. -/
def exRowNull : Row := fun c => if c = "m" then .null else .undefined

/-- A row with no keys at all: every access yields `undefined`. -/
def exRowMissing : Row := fun _ => .undefined

/-- A schema with an integer column "g" and a float column "m". -/
def exSchemaG : Schema :=
  fun c => if c = "g" then .integer else if c = "m" then .float else .other

/-- A config selecting "m" and explicitly grouping by "g". -/
def exCfgG : ViewConfig := ⟨["m"], ["g"]⟩

/-- A row with grouping value `0` (present, non-null, falsy). -/
def exRowG0 : Row := fun c => if c = "g" then .num 0 else if c = "m" then .num 1 else .undefined

/-- A row with grouping value `5`. -/
def exRowG5 : Row := fun c => if c = "g" then .num 5 else if c = "m" then .num 2 else .undefined

/-- A schema with a date column "d" and a float column "v". -/
def exSchemaD : Schema := fun c => if c = "d" then .date else if c = "v" then .float else .other

/-- A config selecting "d" and "v", with no explicit grouping. -/
def exCfgD : ViewConfig := ⟨["d", "v"], []⟩

/-- A row with metric value 1. -/
def exRowM1 : Row := fun c => if c = "m" then .num 1 else .undefined

/-- A row with metric value 100. -/
def exRowM100 : Row := fun c => if c = "m" then .num 100 else .undefined

/-! ## Concrete evaluations: counterexamples and code-bug exhibits -/

/-- C2 counterexample: with schema {d: date, v: float} and columns
[d, v], the main plugin's classifier puts NO column in the categorical
set (date is not matched) and resolves no grouping column, contrary to
the claim that the categorical set is exactly the string-or-date columns
and that the date column d becomes the groupByColumn. -/
theorem c2_counterexample :
    part001categoricalColumns exSchemaD exCfgD = [] ∧
    resolveGroupBy (part001categoricalColumns exSchemaD exCfgD) exCfgD = none ∧
    part001numericColumns exSchemaD exCfgD = ["v"] := by
  decide

/-- C3 counterexample: a row whose metric value is the JS `null` is NOT
dropped: `+null` coerces to `0`, which is not NaN, so the pipeline emits
a record whose retained values are `[0]` — the claim says a null value
must be dropped (which would leave this cell empty and omitted). -/
theorem c3_counterexample :
    part001processDataForBoxplot [exRowNull] exCfgM exSchemaM =
      [⟨.str "m", "m", 0, .str "m", [0], some ⟨0, 0, 0, 0, 0, 0, [], 1⟩⟩] := by
  norm_num [part001processDataForBoxplot, part001processRawData, part001numericColumns,
    part001categoricalColumns, resolveGroupBy, part001cellRecord, part001cellValues,
    part001calcStats, quantileSorted, jsSort, jsMean, toNum, exSchemaM, exCfgM, exRowNull,
    List.insertionSort, List.orderedInsert, List.find?, List.filter, List.filterMap,
    List.enum, List.enumFrom]

/-- C4 exhibit: on the cell values [-1000, 0, 0, 0, 0] the quartiles are
all 0, so the lower fence is 0 and the smallest value within the fences
is 0 (as `find` locates).  The main plugin nevertheless reports
min = -1000, because `find(...) || sortedValues[0]` treats the found
value 0 as falsy; react-proper.js's version reports min = 0 as the
claim requires. -/
theorem c4_falsy_fallback_eval :
    part001calcStats [-1000, 0, 0, 0, 0] =
      some ⟨-1000, 0, 0, 0, 0, -200, [-1000], 5⟩ ∧
    List.find? (fun v => decide ((0 : ℚ) ≤ v)) (jsSort [-1000, 0, 0, 0, 0]) = some 0 ∧
    (rpCalcStats [-1000, 0, 0, 0, 0]).min = 0 ∧
    (rpCalcStats [-1000, 0, 0, 0, 0]).q1 = 0 := by
  refine ⟨?_, ?_, ?_, ?_⟩ <;>
  · norm_num [part001calcStats, rpCalcStats, quantileSorted, jsSort, jsMean,
      List.insertionSort, List.orderedInsert, List.find?, List.filter]
    try norm_num [Int.toNat_ofNat]
    try simp
    try norm_num

/-- C5 counterexample: grouping on column g, the row with g = 0 (a
present, non-null value) is assigned the group key "Unknown" (the source
computes `d[g] || 'Unknown'`, and 0 is falsy), and the row with g = 5
keys a partition under the raw number 5, not the string "5" — contrary
to the claim that only missing/null map to "Unknown" and that groupKey
is always a string. -/
theorem c5_counterexample :
    part001processDataForBoxplot [exRowG0, exRowG5] exCfgG exSchemaG =
      [⟨.str "Unknown", "m", 0, .str "Unknown", [1], some ⟨1, 1, 1, 1, 1, 1, [], 1⟩⟩,
       ⟨.num 5, "m", 0, .num 5, [2], some ⟨2, 2, 2, 2, 2, 2, [], 1⟩⟩] := by
  simp [part001processDataForBoxplot, part001processRawData, part001numericColumns,
    part001categoricalColumns, resolveGroupBy, part001cellRecord, part001cellValues,
    part001calcStats, quantileSorted, jsSort, jsMean, toNum, truthy, part001groupKeyFn, groupByKey,
    firstKeys, exSchemaG, exCfgG, exRowG0, exRowG5, List.insertionSort,
    List.orderedInsert, List.find?, List.filter, List.filterMap, List.enum,
    List.enumFrom, List.flatMap]

/-- C7 counterexample: the ordering invariant min ≤ q1 ≤ median ≤ q3 ≤ max
fails on the code.  On [0, 100, 100, 100] every value below q1 is an
outlier, so min (the smallest in-fence value, 100) exceeds q1 = 75 — in
BOTH implementations; and on the mirror input [10, 10, 10, 110] the
largest in-fence value is 10, so max = 10 is below q3 = 35. -/
theorem c7_counterexample :
    part001calcStats [0, 100, 100, 100] =
      some ⟨100, 75, 100, 100, 100, 75, [0], 4⟩ ∧
    ¬ (100 : ℚ) ≤ 75 ∧
    (rpCalcStats [0, 100, 100, 100]).min = 100 ∧
    (rpCalcStats [0, 100, 100, 100]).q1 = 75 ∧
    part001calcStats [10, 10, 10, 110] =
      some ⟨10, 10, 10, 35, 10, 35, [110], 4⟩ ∧
    ¬ (35 : ℚ) ≤ 10 := by
  refine ⟨?_, by norm_num, ?_, ?_, ?_, by norm_num⟩ <;>
  · norm_num [part001calcStats, rpCalcStats, quantileSorted, jsSort, jsMean,
      List.insertionSort, List.orderedInsert, List.find?, List.filter]
    try simp only [show Int.toNat 2 = 2 from rfl, show Int.toNat 1 = 1 from rfl,
      show Int.toNat 3 = 3 from rfl]
    try norm_num

/-- C9 counterexample: with metric column list ["m"] resolved and one row
whose "m" key is missing (so its coercion is NaN and is dropped), the
pipeline returns NO record at all — contrary to the claim that, without
grouping, there is exactly one record per metric. -/
theorem c9_counterexample :
    part001numericColumns exSchemaM exCfgM = ["m"] ∧
    resolveGroupBy (part001categoricalColumns exSchemaM exCfgM) exCfgM = none ∧
    part001processDataForBoxplot [exRowMissing] exCfgM exSchemaM = [] := by
  decide

/-! ## General lemmas about the embedded operations -/

/-- Sorting is a permutation. -/
theorem jsSort_perm (l : List ℚ) : (jsSort l).Perm l :=
  List.perm_insertionSort _ l

/-- The sort's output is ascending. -/
theorem jsSort_sorted (l : List ℚ) : (jsSort l).Sorted (· ≤ ·) :=
  List.sorted_insertionSort _ l

/-- Sorting a sorted list changes nothing. -/
theorem jsSort_eq_self {l : List ℚ} (h : l.Sorted (· ≤ ·)) : jsSort l = l :=
  List.eq_of_perm_of_sorted (jsSort_perm l) (jsSort_sorted l) h

/-- Sorting preserves length. -/
theorem jsSort_length (l : List ℚ) : (jsSort l).length = l.length :=
  (jsSort_perm l).length_eq

/-- In a sorted list, values at increasing (in-bounds) positions increase. -/
theorem sorted_getD_mono {v : List ℚ} (hs : v.Sorted (· ≤ ·)) {i j : ℕ}
    (hij : i ≤ j) (hj : j < v.length) : v.getD i 0 ≤ v.getD j 0 := by
  have hi : i < v.length := lt_of_le_of_lt hij hj
  rw [List.getD_eq_getElem?_getD, List.getD_eq_getElem?_getD,
    List.getElem?_eq_getElem hi, List.getElem?_eq_getElem hj]
  simpa [List.get_eq_getElem] using
    hs.get_mono (show (⟨i, hi⟩ : Fin v.length) ≤ ⟨j, hj⟩ from hij)

/-- Membership in the first-occurrence key list is plain membership. -/
theorem mem_firstKeys_iff {α} [DecidableEq α] {x : α} :
    ∀ {l : List α}, x ∈ firstKeys l ↔ x ∈ l := by
  intro l
  induction l with
  | nil => simp [firstKeys]
  | cons k ks ih =>
    by_cases hx : x = k
    · simp [firstKeys, hx]
    · simp [firstKeys, hx, List.mem_filter, ih]

/-- The first-occurrence key list has no duplicates. -/
theorem firstKeys_nodup {α} [DecidableEq α] : ∀ (l : List α), (firstKeys l).Nodup := by
  intro l
  induction l with
  | nil => simp [firstKeys]
  | cons k ks ih =>
    refine List.Nodup.cons ?_ (ih.filter _)
    intro hk
    have := (List.mem_filter.1 hk).2
    simp at this

/-- The retained cell values are sorted. -/
theorem part001cellValues_sorted (m : String) (rs : List Row) :
    (part001cellValues m rs).Sorted (· ≤ ·) :=
  jsSort_sorted _

/-- d3's interpolated quantile is monotone in the fraction on a sorted
list (for fractions strictly between 0 and 1). -/
theorem quantileSorted_mono {v : List ℚ} (hs : v.Sorted (· ≤ ·)) {p p' : ℚ}
    (hp0 : 0 < p) (hpp : p ≤ p') (hp1 : p' < 1) :
    quantileSorted v p ≤ quantileSorted v p' := by
  have hp'0 : 0 < p' := lt_of_lt_of_le hp0 hpp
  have hpl1 : p < 1 := lt_of_le_of_lt hpp hp1
  by_cases h0 : v.length = 0
  · simp [quantileSorted, h0]
  by_cases h1 : v.length < 2
  · have hc : p ≤ 0 ∨ v.length < 2 := Or.inr h1
    have hc' : p' ≤ 0 ∨ v.length < 2 := Or.inr h1
    simp [quantileSorted, h0, hc, hc']
  have hn2 : 2 ≤ v.length := not_lt.1 h1
  have hc : ¬ (p ≤ 0 ∨ v.length < 2) := by push_neg; exact ⟨hp0, hn2⟩
  have hc' : ¬ (p' ≤ 0 ∨ v.length < 2) := by push_neg; exact ⟨hp'0, hn2⟩
  have hnp : ¬ (1 : ℚ) ≤ p := not_le.2 hpl1
  have hnp' : ¬ (1 : ℚ) ≤ p' := not_le.2 hp1
  simp only [quantileSorted, if_neg h0, if_neg hc, if_neg hc', if_neg hnp, if_neg hnp']
  set m : ℕ := v.length - 1 with hm
  have hm1 : 1 ≤ m := by omega
  have hmlt : m < v.length := by omega
  set r : ℚ := (m : ℚ) * p with hr
  set r' : ℚ := (m : ℚ) * p' with hr'
  have hmpos : (0 : ℚ) < (m : ℚ) := by exact_mod_cast hm1
  have hr0 : 0 ≤ r := le_of_lt (mul_pos hmpos hp0)
  have hrr : r ≤ r' := mul_le_mul_of_nonneg_left hpp (le_of_lt hmpos)
  have hr'lt : r' < (m : ℚ) := by
    have := mul_lt_mul_of_pos_left hp1 hmpos
    simpa [hr'] using this
  have hfl0 : (0 : ℤ) ≤ ⌊r⌋ := Int.floor_nonneg.2 hr0
  have hfl0' : (0 : ℤ) ≤ ⌊r'⌋ := Int.floor_nonneg.2 (le_trans hr0 hrr)
  set i0 : ℕ := (⌊r⌋).toNat with hi0
  set j0 : ℕ := (⌊r'⌋).toNat with hj0
  have hi0z : ((i0 : ℤ)) = ⌊r⌋ := Int.toNat_of_nonneg hfl0
  have hj0z : ((j0 : ℤ)) = ⌊r'⌋ := Int.toNat_of_nonneg hfl0'
  have hi0q : ((i0 : ℚ)) ≤ r := by
    have h := Int.floor_le r
    rw [← hi0z] at h
    exact_mod_cast h
  have hri0 : r < (i0 : ℚ) + 1 := by
    have h := Int.lt_floor_add_one r
    rw [← hi0z] at h
    exact_mod_cast h
  have hj0q : ((j0 : ℚ)) ≤ r' := by
    have h := Int.floor_le r'
    rw [← hj0z] at h
    exact_mod_cast h
  have hij : i0 ≤ j0 := Int.toNat_le_toNat (Int.floor_le_floor hrr)
  have hj0m : j0 < m := by
    have h : (⌊r'⌋ : ℚ) < (m : ℚ) := lt_of_le_of_lt (Int.floor_le r') hr'lt
    have h2 : ⌊r'⌋ < ((m : ℕ) : ℤ) := by exact_mod_cast h
    omega
  have hj1len : j0 + 1 < v.length := by omega
  have hjlen : j0 < v.length := by omega
  have hi1len : i0 + 1 < v.length := by omega
  have hab : v.getD i0 0 ≤ v.getD (i0 + 1) 0 :=
    sorted_getD_mono hs (Nat.le_succ i0) hi1len
  have hcd : v.getD j0 0 ≤ v.getD (j0 + 1) 0 :=
    sorted_getD_mono hs (Nat.le_succ j0) hj1len
  rcases Nat.eq_or_lt_of_le hij with heq | hlt
  · rw [heq]
    have hba : 0 ≤ v.getD (j0 + 1) 0 - v.getD j0 0 := sub_nonneg.2 hcd
    have key := mul_le_mul_of_nonneg_left (sub_le_sub_right hrr ((j0 : ℚ))) hba
    rw [heq] at hi0q hri0
    linarith
  · have hbc : v.getD (i0 + 1) 0 ≤ v.getD j0 0 :=
      sorted_getD_mono hs hlt hjlen
    have hba : 0 ≤ v.getD (i0 + 1) 0 - v.getD i0 0 := sub_nonneg.2 hab
    have hdc : 0 ≤ v.getD (j0 + 1) 0 - v.getD j0 0 := sub_nonneg.2 hcd
    have key1 : (v.getD (i0 + 1) 0 - v.getD i0 0) * (r - (i0 : ℚ)) ≤
        (v.getD (i0 + 1) 0 - v.getD i0 0) * 1 :=
      mul_le_mul_of_nonneg_left (by linarith) hba
    have key2 : 0 ≤ (v.getD (j0 + 1) 0 - v.getD j0 0) * (r' - (j0 : ℚ)) :=
      mul_nonneg hdc (by linarith)
    linarith

/-- On any list, the d3 quantile at a fraction strictly between 0 and 1
coincides with the spec's floor/ceil interpolation formula. -/
theorem quantileSorted_eq_interpAt (v : List ℚ) (f : ℚ) (hf0 : 0 < f) (hf1 : f < 1) :
    quantileSorted v f = interpAt v f := by
  by_cases h0 : v.length = 0
  · rcases List.length_eq_zero.1 h0 with rfl
    simp [quantileSorted, interpAt]
  by_cases h1 : v.length < 2
  · have hlen : v.length = 1 := by omega
    rcases List.length_eq_one.1 hlen with ⟨a, rfl⟩
    have hc : f ≤ 0 ∨ ([a] : List ℚ).length < 2 := Or.inr h1
    simp [quantileSorted, interpAt, hc]
  have hn2 : 2 ≤ v.length := not_lt.1 h1
  have hc : ¬ (f ≤ 0 ∨ v.length < 2) := by push_neg; exact ⟨hf0, hn2⟩
  have hnf : ¬ (1 : ℚ) ≤ f := not_le.2 hf1
  simp only [quantileSorted, interpAt, if_neg h0, if_neg hc, if_neg hnf]
  have hcast : ((v.length - 1 : ℕ) : ℚ) = (v.length : ℚ) - 1 := by
    have h : 1 ≤ v.length := by omega
    push_cast [h]
    ring
  set m : ℕ := v.length - 1 with hm
  have hmeq : f * ((v.length : ℚ) - 1) = (m : ℚ) * f := by
    rw [← hcast]; ring
  rw [hmeq]
  set r : ℚ := (m : ℚ) * f with hr
  have hm1 : 1 ≤ m := by omega
  have hmpos : (0 : ℚ) < (m : ℚ) := by exact_mod_cast hm1
  have hr0 : 0 ≤ r := le_of_lt (mul_pos hmpos hf0)
  have hfl0 : (0 : ℤ) ≤ ⌊r⌋ := Int.floor_nonneg.2 hr0
  have hi0z : (((⌊r⌋).toNat : ℤ)) = ⌊r⌋ := Int.toNat_of_nonneg hfl0
  have hi0q : (((⌊r⌋).toNat : ℚ)) = ((⌊r⌋ : ℤ) : ℚ) := by exact_mod_cast hi0z
  rcases eq_or_lt_of_le (Int.floor_le r) with hint | hfrac
  · have hceil0 : ⌈r⌉ = ⌊r⌋ := by rw [← hint]; exact Int.ceil_intCast _
    have hfac1 : r - (((⌊r⌋).toNat : ℚ)) = 0 := by rw [hi0q, hint]; ring
    have hfac2 : r - ((⌊r⌋ : ℤ) : ℚ) = 0 := by rw [hint]; ring
    rw [hceil0, hfac1, hfac2]
    ring
  · have hceil : ⌈r⌉ = ⌊r⌋ + 1 := by
      have hlow : ⌊r⌋ < ⌈r⌉ := Int.lt_ceil.2 hfrac
      have hhigh : ⌈r⌉ ≤ ⌊r⌋ + 1 := Int.ceil_le.2 (le_of_lt (by
        push_cast
        exact Int.lt_floor_add_one r))
      omega
    have htn : (⌊r⌋ + 1).toNat = (⌊r⌋).toNat + 1 := by omega
    rw [hceil, htn, hi0q]

/-- Field characterization of a successful `_calculateBoxplotStats` call:
the quartiles, mean and outliers in terms of the sorted input, and a
positive count. -/
theorem part001calcStats_some {values : List ℚ} {s : BoxStats}
    (h : part001calcStats values = some s) :
    s.q1 = quantileSorted (jsSort values) (1/4) ∧
    s.median = quantileSorted (jsSort values) (1/2) ∧
    s.q3 = quantileSorted (jsSort values) (3/4) ∧
    s.mean = jsMean (jsSort values) ∧
    s.outliers = (jsSort values).filter
      (fun x => decide (x < s.q1 - 3/2 * (s.q3 - s.q1)) ||
        decide (x > s.q3 + 3/2 * (s.q3 - s.q1))) ∧
    s.count = values.length ∧
    values.length ≠ 0 := by
  by_cases h0 : values.length = 0
  · rw [part001calcStats, if_pos h0] at h
    exact absurd h (by simp)
  · rw [part001calcStats, if_neg h0] at h
    have hs := (Option.some_inj.1 h).symm
    subst hs
    refine ⟨rfl, rfl, rfl, rfl, rfl, ?_, h0⟩
    exact jsSort_length values

/-- Field characterization of react-proper.js's `calculateBoxplotStats`. -/
theorem rpCalcStats_fields (values : List ℚ) :
    (rpCalcStats values).q1 = quantileSorted (jsSort values) (1/4) ∧
    (rpCalcStats values).median = quantileSorted (jsSort values) (1/2) ∧
    (rpCalcStats values).q3 = quantileSorted (jsSort values) (3/4) ∧
    (rpCalcStats values).outliers = (jsSort values).filter
      (fun x => decide (x < (rpCalcStats values).q1 -
          3/2 * ((rpCalcStats values).q3 - (rpCalcStats values).q1)) ||
        decide (x > (rpCalcStats values).q3 +
          3/2 * ((rpCalcStats values).q3 - (rpCalcStats values).q1))) :=
  ⟨rfl, rfl, rfl, rfl⟩

/-- C6: for every non-empty sorted value list, the stats' q1/median/q3
are the R-7 linear-interpolation quantiles at 1/4, 1/2 and 3/4 (the
spec's floor/ceil rank formula), and the mean is the arithmetic mean of
all retained values, outliers included. -/
theorem c6_quantile_r7 :
    ∀ (v : List ℚ) (s : BoxStats), v ≠ [] → v.Sorted (· ≤ ·) →
      part001calcStats v = some s →
      s.q1 = interpAt v (1/4) ∧ s.median = interpAt v (1/2) ∧
      s.q3 = interpAt v (3/4) ∧ s.mean = v.sum / (v.length : ℚ) := by
  intro v s hne hsort h
  obtain ⟨hq1, hmed, hq3, hmean, -, -, -⟩ := part001calcStats_some h
  rw [jsSort_eq_self hsort] at hq1 hmed hq3 hmean
  refine ⟨?_, ?_, ?_, ?_⟩
  · rw [hq1]; exact quantileSorted_eq_interpAt v (1/4) (by norm_num) (by norm_num)
  · rw [hmed]; exact quantileSorted_eq_interpAt v (1/2) (by norm_num) (by norm_num)
  · rw [hq3]; exact quantileSorted_eq_interpAt v (3/4) (by norm_num) (by norm_num)
  · rw [hmean]; rfl

/-- C6 witness: the spec's own instance — values [10, 20] give
q1 = 12.5, median = 15, q3 = 17.5, mean = 15 — obtained by applying the
C6 theorem at that input. -/
theorem c6_quantile_r7_witness :
    (([10, 20] : List ℚ) ≠ [] ∧ ([10, 20] : List ℚ).Sorted (· ≤ ·) ∧
      part001calcStats [10, 20] = some ⟨10, 25/2, 15, 35/2, 20, 15, [], 2⟩) ∧
    ((⟨10, 25/2, 15, 35/2, 20, 15, [], 2⟩ : BoxStats).q1 = interpAt [10, 20] (1/4) ∧
     (⟨10, 25/2, 15, 35/2, 20, 15, [], 2⟩ : BoxStats).median = interpAt [10, 20] (1/2) ∧
     (⟨10, 25/2, 15, 35/2, 20, 15, [], 2⟩ : BoxStats).q3 = interpAt [10, 20] (3/4) ∧
     (⟨10, 25/2, 15, 35/2, 20, 15, [], 2⟩ : BoxStats).mean =
       ([10, 20] : List ℚ).sum / (([10, 20] : List ℚ).length : ℚ)) := by
  have h1 : ([10, 20] : List ℚ) ≠ [] := by simp
  have h2 : ([10, 20] : List ℚ).Sorted (· ≤ ·) := by norm_num [List.sorted_cons]
  have h3 : part001calcStats [10, 20] = some ⟨10, 25/2, 15, 35/2, 20, 15, [], 2⟩ := by
    norm_num [part001calcStats, quantileSorted, jsSort, jsMean, List.insertionSort,
      List.orderedInsert, List.find?, List.filter]
  exact ⟨⟨h1, h2, h3⟩, c6_quantile_r7 [10, 20] _ h1 h2 h3⟩

/-- C7 (amended): q1 ≤ median ≤ q3 always holds, every reported outlier
is strictly outside the fences, and every retained value that is not an
outlier lies within the fences — in both implementations.  (The claim's
full chain min ≤ q1 and q3 ≤ max is refuted by the counterexample: the
fence-bounded min/max can land strictly inside the quartiles.) -/
theorem c7_stats_invariants :
    (∀ (values : List ℚ) (s : BoxStats), part001calcStats values = some s →
      (s.q1 ≤ s.median ∧ s.median ≤ s.q3) ∧
      (∀ x ∈ s.outliers,
        x < s.q1 - 3/2 * (s.q3 - s.q1) ∨ x > s.q3 + 3/2 * (s.q3 - s.q1)) ∧
      (∀ x ∈ values, x ∉ s.outliers →
        s.q1 - 3/2 * (s.q3 - s.q1) ≤ x ∧ x ≤ s.q3 + 3/2 * (s.q3 - s.q1))) ∧
    (∀ values : List ℚ, values ≠ [] →
      ((rpCalcStats values).q1 ≤ (rpCalcStats values).median ∧
        (rpCalcStats values).median ≤ (rpCalcStats values).q3) ∧
      (∀ x ∈ (rpCalcStats values).outliers,
        x < (rpCalcStats values).q1 -
            3/2 * ((rpCalcStats values).q3 - (rpCalcStats values).q1) ∨
          x > (rpCalcStats values).q3 +
            3/2 * ((rpCalcStats values).q3 - (rpCalcStats values).q1)) ∧
      (∀ x ∈ values, x ∉ (rpCalcStats values).outliers →
        (rpCalcStats values).q1 -
            3/2 * ((rpCalcStats values).q3 - (rpCalcStats values).q1) ≤ x ∧
          x ≤ (rpCalcStats values).q3 +
            3/2 * ((rpCalcStats values).q3 - (rpCalcStats values).q1))) := by
  constructor
  · intro values s h
    obtain ⟨hq1, hmed, hq3, -, hout, -, -⟩ := part001calcStats_some h
    refine ⟨⟨?_, ?_⟩, ?_, ?_⟩
    · rw [hq1, hmed]
      exact quantileSorted_mono (jsSort_sorted values) (by norm_num) (by norm_num)
        (by norm_num)
    · rw [hmed, hq3]
      exact quantileSorted_mono (jsSort_sorted values) (by norm_num) (by norm_num)
        (by norm_num)
    · intro x hx
      rw [hout] at hx
      have hp := (List.mem_filter.1 hx).2
      simpa using hp
    · intro x hxv hxo
      rw [hout] at hxo
      have hxs : x ∈ jsSort values := (jsSort_perm values).mem_iff.2 hxv
      by_contra hcon
      rcases not_and_or.1 hcon with hlt | hgt
      · exact hxo (List.mem_filter.2 ⟨hxs, by simp [not_le.1 hlt]⟩)
      · exact hxo (List.mem_filter.2 ⟨hxs, by simp [not_le.1 hgt]⟩)
  · intro values hne
    obtain ⟨hq1, hmed, hq3, hout⟩ := rpCalcStats_fields values
    refine ⟨⟨?_, ?_⟩, ?_, ?_⟩
    · rw [hq1, hmed]
      exact quantileSorted_mono (jsSort_sorted values) (by norm_num) (by norm_num)
        (by norm_num)
    · rw [hmed, hq3]
      exact quantileSorted_mono (jsSort_sorted values) (by norm_num) (by norm_num)
        (by norm_num)
    · intro x hx
      rw [hout] at hx
      have hp := (List.mem_filter.1 hx).2
      simpa using hp
    · intro x hxv hxo
      rw [hout] at hxo
      have hxs : x ∈ jsSort values := (jsSort_perm values).mem_iff.2 hxv
      by_contra hcon
      rcases not_and_or.1 hcon with hlt | hgt
      · exact hxo (List.mem_filter.2 ⟨hxs, by simp [not_le.1 hlt]⟩)
      · exact hxo (List.mem_filter.2 ⟨hxs, by simp [not_le.1 hgt]⟩)

/-- C7 witness: the amended invariants instantiated at [0, 100, 100, 100]
(a cell with an outlier), via the C7 theorem. -/
theorem c7_stats_invariants_witness :
    (part001calcStats [0, 100, 100, 100] =
      some ⟨100, 75, 100, 100, 100, 75, [0], 4⟩) ∧
    (([0, 100, 100, 100] : List ℚ) ≠ []) ∧
    (((⟨100, 75, 100, 100, 100, 75, [0], 4⟩ : BoxStats).q1 ≤
        (⟨100, 75, 100, 100, 100, 75, [0], 4⟩ : BoxStats).median ∧
      (⟨100, 75, 100, 100, 100, 75, [0], 4⟩ : BoxStats).median ≤
        (⟨100, 75, 100, 100, 100, 75, [0], 4⟩ : BoxStats).q3) ∧
     (∀ x ∈ (⟨100, 75, 100, 100, 100, 75, [0], 4⟩ : BoxStats).outliers,
        x < (⟨100, 75, 100, 100, 100, 75, [0], 4⟩ : BoxStats).q1 -
            3/2 * ((⟨100, 75, 100, 100, 100, 75, [0], 4⟩ : BoxStats).q3 -
              (⟨100, 75, 100, 100, 100, 75, [0], 4⟩ : BoxStats).q1) ∨
          x > (⟨100, 75, 100, 100, 100, 75, [0], 4⟩ : BoxStats).q3 +
            3/2 * ((⟨100, 75, 100, 100, 100, 75, [0], 4⟩ : BoxStats).q3 -
              (⟨100, 75, 100, 100, 100, 75, [0], 4⟩ : BoxStats).q1)) ∧
     (∀ x ∈ ([0, 100, 100, 100] : List ℚ),
        x ∉ (⟨100, 75, 100, 100, 100, 75, [0], 4⟩ : BoxStats).outliers →
        (⟨100, 75, 100, 100, 100, 75, [0], 4⟩ : BoxStats).q1 -
            3/2 * ((⟨100, 75, 100, 100, 100, 75, [0], 4⟩ : BoxStats).q3 -
              (⟨100, 75, 100, 100, 100, 75, [0], 4⟩ : BoxStats).q1) ≤ x ∧
          x ≤ (⟨100, 75, 100, 100, 100, 75, [0], 4⟩ : BoxStats).q3 +
            3/2 * ((⟨100, 75, 100, 100, 100, 75, [0], 4⟩ : BoxStats).q3 -
              (⟨100, 75, 100, 100, 100, 75, [0], 4⟩ : BoxStats).q1))) ∧
    ((rpCalcStats [0, 100, 100, 100]).q1 ≤ (rpCalcStats [0, 100, 100, 100]).median ∧
      (rpCalcStats [0, 100, 100, 100]).median ≤ (rpCalcStats [0, 100, 100, 100]).q3) := by
  have h : part001calcStats [0, 100, 100, 100] =
      some ⟨100, 75, 100, 100, 100, 75, [0], 4⟩ := by
    norm_num [part001calcStats, quantileSorted, jsSort, jsMean, List.insertionSort,
      List.orderedInsert, List.find?, List.filter]
    try simp only [show Int.toNat 2 = 2 from rfl, show Int.toNat 1 = 1 from rfl,
      show Int.toNat 3 = 3 from rfl]
    try norm_num
  have hne : ([0, 100, 100, 100] : List ℚ) ≠ [] := by simp
  exact ⟨h, hne, c7_stats_invariants.1 [0, 100, 100, 100] _ h,
    (c7_stats_invariants.2 [0, 100, 100, 100] hne).1⟩

/-- A member of the metric list appears (with some index) in its
enumeration. -/
theorem exists_mem_enumFrom_of_mem {α} {m : α} :
    ∀ {l : List α} (n : ℕ), m ∈ l → ∃ i, (i, m) ∈ List.enumFrom n l := by
  intro l
  induction l with
  | nil => intro n h; simp at h
  | cons a t ih =>
    intro n h
    rcases List.mem_cons.1 h with rfl | ht
    · exact ⟨n, by simp [List.enumFrom_cons]⟩
    · rcases ih (n + 1) ht with ⟨i, hi⟩
      exact ⟨i, by simp [List.enumFrom_cons, hi]⟩

/-- A successful cell record carries the given label/groupKey/metric, its
sorted non-empty retained values, and the stats computed from them. -/
theorem part001cellRecord_some {label groupKey : JsVal} {metricCol : String}
    {metricIndex : ℕ} {rowsPart : List Row} {rec : BoxRecord}
    (h : part001cellRecord label groupKey metricCol metricIndex rowsPart = some rec) :
    rec = ⟨label, metricCol, metricIndex, groupKey,
      part001cellValues metricCol rowsPart,
      part001calcStats (part001cellValues metricCol rowsPart)⟩ ∧
    part001cellValues metricCol rowsPart ≠ [] := by
  rw [part001cellRecord] at h
  by_cases hl : (part001cellValues metricCol rowsPart).length > 0
  · rw [if_pos hl] at h
    exact ⟨(Option.some_inj.1 h).symm, List.length_pos.1 hl⟩
  · rw [if_neg hl] at h
    exact absurd h (by simp)

/-- Every record the pipeline emits has sorted, non-empty values, stats
computed from those values, and a metric drawn from the numeric columns. -/
theorem mem_part001processRawData {rows : List Row} {cfg : ViewConfig}
    {schema : Schema} {rec : BoxRecord}
    (h : rec ∈ part001processRawData rows cfg schema) :
    rec.values.Sorted (· ≤ ·) ∧ rec.values ≠ [] ∧
    rec.stats = part001calcStats rec.values ∧
    rec.metric ∈ part001numericColumns schema cfg := by
  rw [part001processRawData] at h
  by_cases hn : (part001numericColumns schema cfg).length = 0
  · rw [if_pos hn] at h
    simp at h
  rw [if_neg hn] at h
  rcases hres : resolveGroupBy (part001categoricalColumns schema cfg) cfg with _ | g <;>
    rw [hres] at h
  · -- ungrouped branch
    rcases List.mem_filterMap.1 h with ⟨im, him, hmk⟩
    obtain ⟨hrec, hne⟩ := part001cellRecord_some hmk
    subst hrec
    have hm2 : im.2 ∈ part001numericColumns schema cfg := by
      rcases im with ⟨i, m⟩
      have := List.mem_enumFrom (by simpa [List.enum_eq_enumFrom] using him)
      rcases this with ⟨-, -, hx⟩
      exact hx ▸ List.getElem_mem _
    exact ⟨part001cellValues_sorted _ _, hne, rfl, hm2⟩
  · -- grouped branch
    rcases List.mem_flatMap.1 h with ⟨kv, -, hrec⟩
    rcases List.mem_filterMap.1 hrec with ⟨im, him, hmk⟩
    obtain ⟨hrec2, hne⟩ := part001cellRecord_some hmk
    subst hrec2
    have hm2 : im.2 ∈ part001numericColumns schema cfg := by
      rcases im with ⟨i, m⟩
      have := List.mem_enumFrom (by simpa [List.enum_eq_enumFrom] using him)
      rcases this with ⟨-, -, hx⟩
      exact hx ▸ List.getElem_mem _
    exact ⟨part001cellValues_sorted _ _, hne, rfl, hm2⟩

/-- A non-empty value list always yields stats, whose count is the number
of retained values. -/
theorem part001calcStats_of_ne_nil {v : List ℚ} (h : v ≠ []) :
    ∃ s, part001calcStats v = some s ∧ s.count = v.length := by
  rw [part001calcStats, if_neg (by simpa using h)]
  exact ⟨_, rfl, jsSort_length v⟩

/-- C8: empty rows or an empty resolved metric list produce the empty
record sequence without error, and no emitted record has an empty value
list or missing/zero-count stats (zero-count cells are silently
omitted). -/
theorem c8_empty_inputs :
    (∀ (cfg : ViewConfig) (schema : Schema),
      part001processDataForBoxplot [] cfg schema = []) ∧
    (∀ (rows : List Row) (cfg : ViewConfig) (schema : Schema),
      part001numericColumns schema cfg = [] →
      part001processDataForBoxplot rows cfg schema = []) ∧
    (∀ (rows : List Row) (cfg : ViewConfig) (schema : Schema)
      (rec : BoxRecord), rec ∈ part001processDataForBoxplot rows cfg schema →
      rec.values ≠ [] ∧ ∃ s, rec.stats = some s ∧ 0 < s.count) := by
  refine ⟨fun cfg schema => rfl, ?_, ?_⟩
  · intro rows cfg schema h
    rw [part001processDataForBoxplot]
    by_cases hr : rows.length = 0
    · rw [if_pos hr]
    · rw [if_neg hr, part001processRawData]
      rw [h]
      rfl
  · intro rows cfg schema rec hmem
    rw [part001processDataForBoxplot] at hmem
    by_cases hr : rows.length = 0
    · rw [if_pos hr] at hmem
      simp at hmem
    · rw [if_neg hr] at hmem
      obtain ⟨-, hne, hstats, -⟩ := mem_part001processRawData hmem
      obtain ⟨s, hsome, hcount⟩ := part001calcStats_of_ne_nil hne
      refine ⟨hne, s, hstats.trans hsome, ?_⟩
      rw [hcount]
      exact List.length_pos.2 hne

/-- C8 witness: the C8 theorem applied at a config whose only column is
a date column (empty metric list) and at the null-row pipeline run. -/
theorem c8_empty_inputs_witness :
    (part001numericColumns exSchemaD ⟨["d"], []⟩ = []) ∧
    (part001processDataForBoxplot [exRowNull] ⟨["d"], []⟩ exSchemaD = []) ∧
    ((⟨.str "m", "m", 0, .str "m", [0], some ⟨0, 0, 0, 0, 0, 0, [], 1⟩⟩ : BoxRecord) ∈
      part001processDataForBoxplot [exRowNull] exCfgM exSchemaM) ∧
    (([0] : List ℚ) ≠ [] ∧ ∃ s,
      (some (⟨0, 0, 0, 0, 0, 0, [], 1⟩ : BoxStats)) = some s ∧ 0 < s.count) := by
  have hd : part001numericColumns exSchemaD ⟨["d"], []⟩ = [] := by decide
  have hmem : (⟨.str "m", "m", 0, .str "m", [0],
      some ⟨0, 0, 0, 0, 0, 0, [], 1⟩⟩ : BoxRecord) ∈
      part001processDataForBoxplot [exRowNull] exCfgM exSchemaM := by
    have heq : part001processDataForBoxplot [exRowNull] exCfgM exSchemaM =
        [⟨.str "m", "m", 0, .str "m", [0], some ⟨0, 0, 0, 0, 0, 0, [], 1⟩⟩] := by
      norm_num [part001processDataForBoxplot, part001processRawData, part001numericColumns,
        part001categoricalColumns, resolveGroupBy, part001cellRecord, part001cellValues,
        part001calcStats, quantileSorted, jsSort, jsMean, toNum, exSchemaM, exCfgM, exRowNull,
        List.insertionSort, List.orderedInsert, List.find?, List.filter, List.filterMap,
        List.enum, List.enumFrom]
    rw [heq]
    simp
  have happ := c8_empty_inputs.2.2 [exRowNull] exCfgM exSchemaM _ hmem
  exact ⟨hd, c8_empty_inputs.2.1 [exRowNull] ⟨["d"], []⟩ exSchemaD hd, hmem, happ⟩

/-- C10: in every emitted record, the outliers list is ascending and is a
subsequence of the record's (ascending-sorted) value list, because the
outliers are a filter of the already-sorted values. -/
theorem c10_outliers_sorted :
    ∀ (rows : List Row) (cfg : ViewConfig) (schema : Schema)
      (rec : BoxRecord) (s : BoxStats),
      rec ∈ part001processDataForBoxplot rows cfg schema → rec.stats = some s →
      s.outliers.Sorted (· ≤ ·) ∧ s.outliers.Sublist rec.values ∧
      rec.values.Sorted (· ≤ ·) := by
  intro rows cfg schema rec s hmem hstats
  rw [part001processDataForBoxplot] at hmem
  by_cases hr : rows.length = 0
  · rw [if_pos hr] at hmem
    simp at hmem
  rw [if_neg hr] at hmem
  obtain ⟨hsort, -, hcalc, -⟩ := mem_part001processRawData hmem
  have hcs : part001calcStats rec.values = some s := hcalc ▸ hstats
  obtain ⟨-, -, -, -, hout, -, -⟩ := part001calcStats_some hcs
  rw [jsSort_eq_self hsort] at hout
  rw [hout]
  exact ⟨hsort.filter _, List.filter_sublist _, hsort⟩

/-- C10 witness: the C10 theorem applied at a four-row pipeline run whose
single cell has values [1, 1, 1, 100] and outlier list [100]. -/
theorem c10_outliers_sorted_witness :
    ((⟨.str "m", "m", 0, .str "m", [1, 1, 1, 100],
        some ⟨1, 1, 1, 103/4, 1, 103/4, [100], 4⟩⟩ : BoxRecord) ∈
      part001processDataForBoxplot [exRowM1, exRowM1, exRowM1, exRowM100]
        exCfgM exSchemaM) ∧
    (([100] : List ℚ).Sorted (· ≤ ·) ∧
      ([100] : List ℚ).Sublist [1, 1, 1, 100] ∧
      ([1, 1, 1, 100] : List ℚ).Sorted (· ≤ ·)) := by
  have heq : part001processDataForBoxplot [exRowM1, exRowM1, exRowM1, exRowM100]
      exCfgM exSchemaM =
      [⟨.str "m", "m", 0, .str "m", [1, 1, 1, 100],
        some ⟨1, 1, 1, 103/4, 1, 103/4, [100], 4⟩⟩] := by
    norm_num [part001processDataForBoxplot, part001processRawData, part001numericColumns,
      part001categoricalColumns, resolveGroupBy, part001cellRecord, part001cellValues,
      part001calcStats, quantileSorted, jsSort, jsMean, toNum, exSchemaM, exCfgM,
      exRowM1, exRowM100, List.insertionSort, List.orderedInsert, List.find?,
      List.filter, List.filterMap, List.enum, List.enumFrom]
    try simp only [show Int.toNat 2 = 2 from rfl, show Int.toNat 1 = 1 from rfl,
      show Int.toNat 3 = 3 from rfl]
    try norm_num
  have hmem : (⟨.str "m", "m", 0, .str "m", [1, 1, 1, 100],
      some ⟨1, 1, 1, 103/4, 1, 103/4, [100], 4⟩⟩ : BoxRecord) ∈
      part001processDataForBoxplot [exRowM1, exRowM1, exRowM1, exRowM100]
        exCfgM exSchemaM := by
    rw [heq]; simp
  have happ := c10_outliers_sorted [exRowM1, exRowM1, exRowM1, exRowM100]
    exCfgM exSchemaM _ _ hmem rfl
  exact ⟨hmem, happ⟩

/-- In a grouped run, every record's groupKey is the key function
applied to some input row. -/
theorem mem_grouped_groupKey {rows : List Row} {cfg : ViewConfig} {schema : Schema}
    {rec : BoxRecord} {g : String}
    (hres : resolveGroupBy (part001categoricalColumns schema cfg) cfg = some g)
    (h : rec ∈ part001processRawData rows cfg schema) :
    ∃ r ∈ rows, rec.groupKey = part001groupKeyFn g r := by
  rw [part001processRawData] at h
  by_cases hn : (part001numericColumns schema cfg).length = 0
  · rw [if_pos hn] at h
    simp at h
  rw [if_neg hn, hres] at h
  rcases List.mem_flatMap.1 h with ⟨kv, hkv, hrec⟩
  rcases List.mem_filterMap.1 hrec with ⟨im, -, hmk⟩
  obtain ⟨hrec2, -⟩ := part001cellRecord_some hmk
  rcases List.mem_map.1 hkv with ⟨k, hk, hkeq⟩
  rcases List.mem_map.1 (mem_firstKeys_iff.1 hk) with ⟨r, hr, hkr⟩
  refine ⟨r, hr, ?_⟩
  rw [hrec2, ← hkeq, hkr]

/-- In a grouped run, every row with a retained value in metric column m
gives rise to a record keyed by that row's group key. -/
theorem grouped_record_exists {rows : List Row} {cfg : ViewConfig} {schema : Schema}
    {g : String} {r : Row} {m : String}
    (hres : resolveGroupBy (part001categoricalColumns schema cfg) cfg = some g)
    (hr : r ∈ rows) (hm : m ∈ part001numericColumns schema cfg)
    (hv : (toNum (r m)).isSome) :
    ∃ rec ∈ part001processRawData rows cfg schema,
      rec.groupKey = part001groupKeyFn g r ∧ rec.metric = m := by
  have hn : ¬ (part001numericColumns schema cfg).length = 0 := by
    intro h0
    rw [List.length_eq_zero.1 h0] at hm
    simp at hm
  rw [part001processRawData, if_neg hn, hres]
  set keyFn := part001groupKeyFn g with hkf
  set k := keyFn r with hk
  have hkmem : k ∈ firstKeys (rows.map keyFn) :=
    mem_firstKeys_iff.2 (List.mem_map_of_mem keyFn hr)
  have hkv : (k, rows.filter (fun r' => decide (keyFn r' = k))) ∈
      groupByKey keyFn rows := by
    rw [groupByKey]
    exact List.mem_map.2 ⟨k, hkmem, rfl⟩
  rcases exists_mem_enumFrom_of_mem 0 hm with ⟨i, him⟩
  have him' : (i, m) ∈ (part001numericColumns schema cfg).enum := by
    rw [List.enum_eq_enumFrom]
    exact him
  set B := rows.filter (fun r' => decide (keyFn r' = k)) with hB
  have hrb : r ∈ B := List.mem_filter.2 ⟨hr, by simp⟩
  rcases Option.isSome_iff_exists.1 hv with ⟨q, hq⟩
  have hqmem : q ∈ B.filterMap (fun r' => toNum (r' m)) :=
    List.mem_filterMap.2 ⟨r, hrb, hq⟩
  have hlen : (part001cellValues m B).length > 0 := by
    rw [part001cellValues, jsSort_length]
    exact List.length_pos.2 (fun hnil => by rw [hnil] at hqmem; simp at hqmem)
  refine ⟨⟨k, m, i, k, part001cellValues m B, part001calcStats (part001cellValues m B)⟩,
    ?_, rfl, rfl⟩
  show _ ∈ (groupByKey (part001groupKeyFn g) rows).flatMap
    (fun kv => (part001numericColumns schema cfg).enum.filterMap
      (fun im => part001cellRecord kv.1 kv.1 im.2 im.1 kv.2))
  refine List.mem_flatMap.2 ⟨(k, B), hkv, ?_⟩
  refine List.mem_filterMap.2 ⟨(i, m), him', ?_⟩
  rw [part001cellRecord, if_pos hlen]

/-- C1: the grouping column is resolved by four-tier first-match
precedence — a non-empty config.group_by wins with its (unvalidated)
first element; else a single categorical column; else the first of
several categorical columns (which are listed in config.columns order,
being a filter of it); else none — and with group_by = [x] every output
group key is derived from column x of some input row. -/
theorem c1_grouping_precedence :
    (∀ (cfg : ViewConfig) (cats : List String) (g : String) (gs : List String),
      cfg.group_by = g :: gs → resolveGroupBy cats cfg = some g) ∧
    (∀ (cfg : ViewConfig) (c : String), cfg.group_by = [] →
      ∀ cats, cats = [c] → resolveGroupBy cats cfg = some c) ∧
    (∀ (cfg : ViewConfig) (c c' : String) (cs : List String), cfg.group_by = [] →
      ∀ cats, cats = c :: c' :: cs → resolveGroupBy cats cfg = some c) ∧
    (∀ cfg : ViewConfig, cfg.group_by = [] → resolveGroupBy [] cfg = none) ∧
    (∀ (schema : Schema) (cfg : ViewConfig),
      (part001categoricalColumns schema cfg).Sublist cfg.columns) ∧
    (∀ (rows : List Row) (cfg : ViewConfig) (schema : Schema) (x : String)
      (rest : List String) (rec : BoxRecord), cfg.group_by = x :: rest →
      rec ∈ part001processDataForBoxplot rows cfg schema →
      ∃ r ∈ rows, rec.groupKey = part001groupKeyFn x r) := by
  refine ⟨?_, ?_, ?_, ?_, ?_, ?_⟩
  · intro cfg cats g gs hgb
    rw [resolveGroupBy, hgb]
    simp
  · intro cfg c hgb cats hcats
    rw [resolveGroupBy, hgb, hcats]
    simp
  · intro cfg c c' cs hgb cats hcats
    rw [resolveGroupBy, hgb, hcats]
    simp
  · intro cfg hgb
    rw [resolveGroupBy, hgb]
    simp
  · intro schema cfg
    exact List.filter_sublist _
  · intro rows cfg schema x rest rec hgb hmem
    rw [part001processDataForBoxplot] at hmem
    by_cases hr : rows.length = 0
    · rw [if_pos hr] at hmem
      simp at hmem
    rw [if_neg hr] at hmem
    have hres : resolveGroupBy (part001categoricalColumns schema cfg) cfg = some x := by
      rw [resolveGroupBy, hgb]
      simp
    exact mem_grouped_groupKey hres hmem

/-- C1 witness: precedence applied at a config with group_by = ["x"] and
two categorical columns x, y; the single record's group key is derived
from column x. -/
theorem c1_grouping_precedence_witness :
    ((⟨["x", "y", "m"], ["x"]⟩ : ViewConfig).group_by = "x" :: []) ∧
    (resolveGroupBy
      (part001categoricalColumns
        (fun c => if c = "x" ∨ c = "y" then .string else if c = "m" then .float else .other)
        ⟨["x", "y", "m"], ["x"]⟩)
      ⟨["x", "y", "m"], ["x"]⟩ = some "x") ∧
    ((⟨.str "a", "m", 0, .str "a", [7], some ⟨7, 7, 7, 7, 7, 7, [], 1⟩⟩ : BoxRecord) ∈
      part001processDataForBoxplot
        [fun c => if c = "x" then .str "a" else if c = "y" then .str "b"
          else if c = "m" then .num 7 else .undefined]
        ⟨["x", "y", "m"], ["x"]⟩
        (fun c => if c = "x" ∨ c = "y" then .string else if c = "m" then .float else .other)) ∧
    (∃ r ∈ [fun c => if c = "x" then JsVal.str "a" else if c = "y" then JsVal.str "b"
          else if c = "m" then JsVal.num 7 else JsVal.undefined],
      (⟨.str "a", "m", 0, .str "a", [7], some ⟨7, 7, 7, 7, 7, 7, [], 1⟩⟩ : BoxRecord).groupKey =
        part001groupKeyFn "x" r) := by
  have h1 : (⟨["x", "y", "m"], ["x"]⟩ : ViewConfig).group_by = "x" :: [] := rfl
  have h2 : resolveGroupBy
      (part001categoricalColumns
        (fun c => if c = "x" ∨ c = "y" then ColType.string
          else if c = "m" then ColType.float else ColType.other)
        ⟨["x", "y", "m"], ["x"]⟩)
      ⟨["x", "y", "m"], ["x"]⟩ = some "x" := by decide
  have h3 : (⟨.str "a", "m", 0, .str "a", [7], some ⟨7, 7, 7, 7, 7, 7, [], 1⟩⟩ : BoxRecord) ∈
      part001processDataForBoxplot
        [fun c => if c = "x" then .str "a" else if c = "y" then .str "b"
          else if c = "m" then .num 7 else .undefined]
        ⟨["x", "y", "m"], ["x"]⟩
        (fun c => if c = "x" ∨ c = "y" then .string else if c = "m" then .float
          else .other) := by
    have heq : part001processDataForBoxplot
        [fun c => if c = "x" then .str "a" else if c = "y" then .str "b"
          else if c = "m" then .num 7 else .undefined]
        ⟨["x", "y", "m"], ["x"]⟩
        (fun c => if c = "x" ∨ c = "y" then .string else if c = "m" then .float
          else .other) =
        [⟨.str "a", "m", 0, .str "a", [7], some ⟨7, 7, 7, 7, 7, 7, [], 1⟩⟩] := by
      simp [part001processDataForBoxplot, part001processRawData, part001numericColumns,
        part001categoricalColumns, resolveGroupBy, part001cellRecord, part001cellValues,
        part001calcStats, quantileSorted, jsSort, jsMean, toNum, truthy, part001groupKeyFn,
        groupByKey, firstKeys, List.insertionSort, List.orderedInsert, List.find?,
        List.filter, List.filterMap, List.enum, List.enumFrom, List.flatMap]
    rw [heq]
    simp
  exact ⟨h1, h2, h3,
    c1_grouping_precedence.2.2.2.2.2 _ _ _ "x" [] _ h1 h3⟩

/-- C5 (amended): in a grouped run the partition key of a row is its raw
grouping value when that value is truthy, and the literal string
"Unknown" for EVERY falsy value (missing, null, 0, empty string, false)
— not only missing/null; group keys are raw values, not string
coercions.  Every record's key arises from some row, and every row with
a retained metric value yields a record under its key. -/
theorem c5_grouping_key :
    ∀ (rows : List Row) (cfg : ViewConfig) (schema : Schema) (g : String),
      resolveGroupBy (part001categoricalColumns schema cfg) cfg = some g →
      (∀ rec ∈ part001processDataForBoxplot rows cfg schema,
        ∃ r ∈ rows, rec.groupKey = part001groupKeyFn g r) ∧
      (∀ r ∈ rows, ∀ m ∈ part001numericColumns schema cfg,
        (toNum (r m)).isSome →
        ∃ rec ∈ part001processDataForBoxplot rows cfg schema,
          rec.groupKey = part001groupKeyFn g r ∧ rec.metric = m) ∧
      (∀ r : Row, part001groupKeyFn g r =
        if truthy (r g) then r g else JsVal.str "Unknown") := by
  intro rows cfg schema g hres
  refine ⟨?_, ?_, fun r => rfl⟩
  · intro rec hmem
    rw [part001processDataForBoxplot] at hmem
    by_cases hr : rows.length = 0
    · rw [if_pos hr] at hmem
      simp at hmem
    · rw [if_neg hr] at hmem
      exact mem_grouped_groupKey hres hmem
  · intro r hr m hm hv
    have hlen : ¬ rows.length = 0 := by
      intro h0
      rw [List.length_eq_zero.1 h0] at hr
      simp at hr
    rw [part001processDataForBoxplot, if_neg hlen]
    exact grouped_record_exists hres hr hm hv

/-- C5 witness: the amended key rule applied to the grouped run with
grouping values 0 (falsy → "Unknown") and 5 (truthy → raw number). -/
theorem c5_grouping_key_witness :
    (resolveGroupBy (part001categoricalColumns exSchemaG exCfgG) exCfgG = some "g") ∧
    (exRowG0 ∈ [exRowG0, exRowG5] ∧ "m" ∈ part001numericColumns exSchemaG exCfgG ∧
      (toNum (exRowG0 "m")).isSome) ∧
    (∃ rec ∈ part001processDataForBoxplot [exRowG0, exRowG5] exCfgG exSchemaG,
      rec.groupKey = part001groupKeyFn "g" exRowG0 ∧ rec.metric = "m") ∧
    (part001groupKeyFn "g" exRowG0 =
      if truthy (exRowG0 "g") then exRowG0 "g" else JsVal.str "Unknown") := by
  have hres : resolveGroupBy (part001categoricalColumns exSchemaG exCfgG) exCfgG =
      some "g" := by decide
  have hr : exRowG0 ∈ [exRowG0, exRowG5] := by simp
  have hm : "m" ∈ part001numericColumns exSchemaG exCfgG := by decide
  have hv : (toNum (exRowG0 "m")).isSome := by decide
  exact ⟨hres, ⟨hr, hm, hv⟩,
    (c5_grouping_key [exRowG0, exRowG5] exCfgG exSchemaG "g" hres).2.1
      exRowG0 hr "m" hm hv,
    (c5_grouping_key [exRowG0, exRowG5] exCfgG exSchemaG "g" hres).2.2 exRowG0⟩

/-- C2 (amended): the MAIN plugin's categorical set is exactly the
string-typed members of config.columns — date columns are excluded there
— while react-proper.js's categorical set is exactly the
string-or-date-typed members, as the claim states. -/
theorem c2_categorical_classification :
    (∀ (schema : Schema) (cfg : ViewConfig) (c : String),
      c ∈ part001categoricalColumns schema cfg ↔
        c ∈ cfg.columns ∧ schema c = .string) ∧
    (∀ (schema : Schema) (cfg : ViewConfig) (c : String),
      c ∈ rpCategoricalColumns schema cfg ↔
        c ∈ cfg.columns ∧ (schema c = .string ∨ schema c = .date)) := by
  constructor
  · intro schema cfg c
    rw [part001categoricalColumns, List.mem_filter]
    cases h : schema c <;> simp [h]
  · intro schema cfg c
    rw [rpCategoricalColumns, List.mem_filter]
    cases h : schema c <;> simp [h]

/-- C2 witness: on the date/float schema, the date column is categorical
for react-proper.js but not for the main plugin, via the amended
characterization. -/
theorem c2_categorical_classification_witness :
    ("d" ∈ rpCategoricalColumns exSchemaD exCfgD) ∧
    ("d" ∉ part001categoricalColumns exSchemaD exCfgD) := by
  constructor
  · exact (c2_categorical_classification.2 exSchemaD exCfgD "d").2
      ⟨by decide, Or.inr (by decide)⟩
  · intro h
    have h2 := ((c2_categorical_classification.1 exSchemaD exCfgD "d").1 h).2
    exact absurd h2 (by decide)

/-- Pointwise equal functions give equal flatMaps. -/
theorem flatMap_congr_mem {α β} {l : List α} {f g : α → List β}
    (h : ∀ x ∈ l, f x = g x) : l.flatMap f = l.flatMap g := by
  induction l with
  | nil => simp
  | cons a t ih =>
    rw [List.flatMap_cons, List.flatMap_cons, h a (by simp),
      ih (fun x hx => h x (by simp [hx]))]

/-- Componentwise permutations lift to flatMap. -/
theorem perm_flatMap_congr {α β} {l : List α} {f g : α → List β}
    (h : ∀ x ∈ l, (f x).Perm (g x)) : (l.flatMap f).Perm (l.flatMap g) := by
  induction l with
  | nil => simp
  | cons a t ih =>
    rw [List.flatMap_cons, List.flatMap_cons]
    exact (h a (by simp)).append (ih (fun x hx => h x (by simp [hx])))

/-- A filterMap distributes out of a flatMap. -/
theorem flatMap_filterMap_comm {α β γ} {l : List α} {h : α → List β} {f : β → Option γ} :
    l.flatMap (fun x => (h x).filterMap f) = (l.flatMap h).filterMap f := by
  induction l with
  | nil => simp
  | cons a t ih =>
    rw [List.flatMap_cons, List.flatMap_cons, List.filterMap_append, ih]

/-- Partitioning rows by a duplicate-free covering key list and
concatenating the buckets permutes the rows. -/
theorem flatMap_filter_perm {κ} [DecidableEq κ] {key : Row → κ} :
    ∀ {ks : List κ} {rows : List Row}, ks.Nodup → (∀ r ∈ rows, key r ∈ ks) →
      (ks.flatMap (fun k => rows.filter (fun r => decide (key r = k)))).Perm rows := by
  intro ks
  induction ks with
  | nil =>
    intro rows hnd hcov
    have hnil : rows = [] := List.eq_nil_iff_forall_not_mem.2 (fun r hr => by
      have := hcov r hr
      simp at this)
    rw [hnil]
    simp
  | cons k ks ih =>
    intro rows hnd hcov
    rw [List.flatMap_cons]
    have hks : ks.Nodup := (List.nodup_cons.1 hnd).2
    have hknot : k ∉ ks := (List.nodup_cons.1 hnd).1
    have hstep : ∀ k' ∈ ks, rows.filter (fun r => decide (key r = k')) =
        (rows.filter (fun r => !decide (key r = k))).filter
          (fun r => decide (key r = k')) := by
      intro k' hk'
      rw [List.filter_filter]
      apply List.filter_congr
      intro r _
      by_cases hkr : key r = k'
      · have hne : key r ≠ k := fun hc => hknot (by
          rw [hkr] at hc
          rw [← hc]
          exact hk')
        simp only [hkr, decide_eq_true_eq]
        have hkk : ¬ k' = k := fun hc => hknot (hc ▸ hk')
        simp [hne, hkk]
      · simp [hkr]
    rw [flatMap_congr_mem hstep]
    have hcov' : ∀ r ∈ rows.filter (fun r => !decide (key r = k)), key r ∈ ks := by
      intro r hr
      have hrm := List.mem_filter.1 hr
      have hne : key r ≠ k := by simpa using hrm.2
      rcases List.mem_cons.1 (hcov r hrm.1) with hc | hc
      · exact absurd hc hne
      · exact hc
    have hperm := ih hks hcov'
    exact List.Perm.trans (List.Perm.append_left _ hperm)
      (List.filter_append_perm _ rows)

/-- Flattening the buckets of the grouping permutes the rows. -/
theorem groupByKey_flatten_perm {κ} [DecidableEq κ] (key : Row → κ) (rows : List Row) :
    ((groupByKey key rows).flatMap (fun kv => kv.2)).Perm rows := by
  rw [groupByKey, List.flatMap_map]
  exact flatMap_filter_perm (firstKeys_nodup _)
    (fun r hr => mem_firstKeys_iff.2 (List.mem_map_of_mem key hr))

/-- No cell record for an absent metric name survives the metric filter. -/
theorem cellRecords_filter_metric_nil {m : String} :
    ∀ {ncols : List String}, m ∉ ncols →
      ∀ (n : ℕ) (labf keyf : String → JsVal) (bucket : List Row),
      ((List.enumFrom n ncols).filterMap
        (fun im => part001cellRecord (labf im.2) (keyf im.2) im.2 im.1 bucket)).filter
        (fun rec => decide (rec.metric = m)) = [] := by
  intro ncols
  induction ncols with
  | nil => intro _ n labf keyf bucket; simp
  | cons c cs ih =>
    intro hm n labf keyf bucket
    have hmc : m ≠ c := fun hc => hm (by simp [hc])
    have hmcs : m ∉ cs := fun hc => hm (by simp [hc])
    rw [List.enumFrom_cons, List.filterMap_cons]
    rcases hmk : part001cellRecord (labf c) (keyf c) c n bucket with _ | rec
    · exact ih hmcs (n + 1) labf keyf bucket
    · obtain ⟨hrec, -⟩ := part001cellRecord_some hmk
      rw [List.filter_cons]
      have hmet : ¬ rec.metric = m := by rw [hrec]; exact fun hc => hmc hc.symm
      simp only [hmet, decide_False]
      rw [if_neg (by simp)]
      exact ih hmcs (n + 1) labf keyf bucket

/-- The records for metric m across a bucket's cells concatenate to the
bucket's sorted retained values for m (empty when the cell was omitted). -/
theorem cellRecords_filter_metric {m : String} :
    ∀ {ncols : List String}, ncols.Nodup → m ∈ ncols →
      ∀ (n : ℕ) (labf keyf : String → JsVal) (bucket : List Row),
      ((((List.enumFrom n ncols).filterMap
        (fun im => part001cellRecord (labf im.2) (keyf im.2) im.2 im.1 bucket)).filter
        (fun rec => decide (rec.metric = m))).flatMap (fun rec => rec.values)) =
        jsSort (bucket.filterMap (fun r => toNum (r m))) := by
  intro ncols
  induction ncols with
  | nil => intro _ hm; simp at hm
  | cons c cs ih =>
    intro hnd hm n labf keyf bucket
    have hcs : cs.Nodup := (List.nodup_cons.1 hnd).2
    have hcnot : c ∉ cs := (List.nodup_cons.1 hnd).1
    rw [List.enumFrom_cons, List.filterMap_cons]
    rcases List.mem_cons.1 hm with rfl | hmcs
    · rcases hmk : part001cellRecord (labf m) (keyf m) m n bucket with _ | rec
      · have hempty : part001cellValues m bucket = [] := by
          rw [part001cellRecord] at hmk
          by_cases hl : (part001cellValues m bucket).length > 0
          · rw [if_pos hl] at hmk; exact absurd hmk (by simp)
          · have h0 : (part001cellValues m bucket).length = 0 := by omega
            exact List.length_eq_zero.1 h0
        have hfm : bucket.filterMap (fun r => toNum (r m)) = [] := by
          have h2 := hempty
          rw [part001cellValues] at h2
          have h3 := jsSort_length (bucket.filterMap (fun r => toNum (r m)))
          rw [h2] at h3
          exact List.length_eq_zero.1 h3.symm
        rw [cellRecords_filter_metric_nil hcnot (n + 1) labf keyf bucket, hfm]
        rfl
      · obtain ⟨hrec, -⟩ := part001cellRecord_some hmk
        rw [List.filter_cons]
        have hmet : rec.metric = m := by rw [hrec]
        simp only [hmet, decide_True, if_true]
        rw [List.flatMap_cons,
          cellRecords_filter_metric_nil hcnot (n + 1) labf keyf bucket,
          List.flatMap_nil, List.append_nil, hrec]
        rfl
    · have hmc : m ≠ c := fun hc => hcnot (hc ▸ hmcs)
      rcases hmk : part001cellRecord (labf c) (keyf c) c n bucket with _ | rec
      · exact ih hcs hmcs (n + 1) labf keyf bucket
      · obtain ⟨hrec, -⟩ := part001cellRecord_some hmk
        rw [List.filter_cons]
        have hmet : ¬ rec.metric = m := by rw [hrec]; exact fun hc => hmc hc.symm
        simp only [hmet, decide_False]
        rw [if_neg (by simp)]
        exact ih hcs hmcs (n + 1) labf keyf bucket

/-- The (groupKey, metric) projection of a bucket's cell records is the
metric list filtered to metrics with at least one retained value, each
tagged with its key. -/
theorem cellRecords_pairs :
    ∀ (ncols : List String) (n : ℕ) (labf keyf : String → JsVal) (bucket : List Row),
      (((List.enumFrom n ncols).filterMap
        (fun im => part001cellRecord (labf im.2) (keyf im.2) im.2 im.1 bucket)).map
        (fun rec => (rec.groupKey, rec.metric))) =
        (ncols.filter (fun m =>
          !(bucket.filterMap (fun r => toNum (r m))).isEmpty)).map
          (fun m => (keyf m, m)) := by
  intro ncols
  induction ncols with
  | nil => intro n labf keyf bucket; simp
  | cons c cs ih =>
    intro n labf keyf bucket
    rw [List.enumFrom_cons, List.filterMap_cons, List.filter_cons]
    have hlen : (part001cellValues c bucket).length =
        (bucket.filterMap (fun r => toNum (r c))).length := by
      rw [part001cellValues]
      exact jsSort_length _
    by_cases hfm : bucket.filterMap (fun r => toNum (r c)) = []
    · have hl : ¬ (part001cellValues c bucket).length > 0 := by
        rw [hlen, hfm]
        simp
      have hmk : part001cellRecord (labf c) (keyf c) c n bucket = none := by
        rw [part001cellRecord, if_neg hl]
      simp only [hmk]
      have hie : ¬ (!(bucket.filterMap (fun r => toNum (r c))).isEmpty) = true := by
        rw [hfm]
        simp
      rw [if_neg hie]
      exact ih (n + 1) labf keyf bucket
    · have hl : (part001cellValues c bucket).length > 0 := by
        rw [hlen]
        exact List.length_pos.2 hfm
      have hmk : part001cellRecord (labf c) (keyf c) c n bucket =
          some ⟨labf c, c, n, keyf c, part001cellValues c bucket,
            part001calcStats (part001cellValues c bucket)⟩ := by
        rw [part001cellRecord, if_pos hl]
      simp only [hmk]
      have hie : (!(bucket.filterMap (fun r => toNum (r c))).isEmpty) = true := by
        simp [hfm]
      rw [if_pos hie, List.map_cons]
      rw [ih (n + 1) labf keyf bucket]
      rfl

/-- C3 (amended): for every metric column (with duplicate-free metric
list), the multiset of values across all emitted records for that metric
is exactly the multiset of retained coercions of that column over all
input rows — where retained means the coercion is not NaN (null and
empty-string coerce to 0 and are RETAINED, contrary to the claim). -/
theorem c3_partition_coverage :
    ∀ (rows : List Row) (cfg : ViewConfig) (schema : Schema) (m : String),
      (part001numericColumns schema cfg).Nodup →
      m ∈ part001numericColumns schema cfg →
      (((part001processDataForBoxplot rows cfg schema).filter
        (fun rec => decide (rec.metric = m))).flatMap (fun rec => rec.values)).Perm
        (rows.filterMap (fun r => toNum (r m))) := by
  intro rows cfg schema m hnd hm
  rw [part001processDataForBoxplot]
  by_cases hr : rows.length = 0
  · rw [if_pos hr]
    rcases List.length_eq_zero.1 hr with rfl
    simp
  rw [if_neg hr, part001processRawData]
  have hn : ¬ (part001numericColumns schema cfg).length = 0 := by
    intro h0
    rw [List.length_eq_zero.1 h0] at hm
    simp at hm
  rw [if_neg hn]
  rcases hres : resolveGroupBy (part001categoricalColumns schema cfg) cfg with _ | g
  · -- ungrouped: a single implicit bucket of all rows
    have heq := cellRecords_filter_metric (m := m) hnd hm 0
      (fun s => JsVal.str s) (fun s => JsVal.str s) rows
    rw [List.enum_eq_enumFrom]
    rw [heq]
    exact jsSort_perm _
  · -- grouped: chain through the bucket decomposition
    set keyFn := part001groupKeyFn g with hkf
    have hcells : ∀ kv ∈ groupByKey keyFn rows,
        ((((part001numericColumns schema cfg).enum.filterMap
          (fun im => part001cellRecord kv.1 kv.1 im.2 im.1 kv.2)).filter
          (fun rec => decide (rec.metric = m))).flatMap (fun rec => rec.values)) =
          jsSort (kv.2.filterMap (fun r => toNum (r m))) := by
      intro kv _
      rw [List.enum_eq_enumFrom]
      exact cellRecords_filter_metric hnd hm 0 (fun _ => kv.1) (fun _ => kv.1) kv.2
    rw [List.filter_flatMap, List.flatMap_assoc]
    rw [flatMap_congr_mem hcells]
    refine List.Perm.trans (perm_flatMap_congr (fun kv _ => jsSort_perm _)) ?_
    rw [flatMap_filterMap_comm]
    exact List.Perm.filterMap _ (groupByKey_flatten_perm keyFn rows)

/-- C3 witness: the amended coverage applied to the grouped two-row run —
the union of the single metric's values across records is a permutation
of the retained coercions [1, 2]. -/
theorem c3_partition_coverage_witness :
    ((part001numericColumns exSchemaG exCfgG).Nodup ∧
      "m" ∈ part001numericColumns exSchemaG exCfgG) ∧
    ((((part001processDataForBoxplot [exRowG0, exRowG5] exCfgG exSchemaG).filter
      (fun rec => decide (rec.metric = "m"))).flatMap (fun rec => rec.values)).Perm
      ([exRowG0, exRowG5].filterMap (fun r => toNum (r "m")))) := by
  have h1 : (part001numericColumns exSchemaG exCfgG).Nodup := by decide
  have h2 : "m" ∈ part001numericColumns exSchemaG exCfgG := by decide
  exact ⟨⟨h1, h2⟩,
    c3_partition_coverage [exRowG0, exRowG5] exCfgG exSchemaG "m" h1 h2⟩

/-- Tagging each bucket's entries with its (duplicate-free) key keeps the
concatenation duplicate-free. -/
theorem nodup_keyed_pairs {κ μ : Type} [DecidableEq κ] :
    ∀ {ks : List κ} {ms : κ → List μ}, ks.Nodup → (∀ k ∈ ks, (ms k).Nodup) →
      (ks.flatMap (fun k => (ms k).map (fun m => (k, m)))).Nodup := by
  intro ks
  induction ks with
  | nil => intro _ _ _; simp
  | cons k ks ih =>
    intro ms hnd hms
    rw [List.flatMap_cons]
    rw [List.nodup_append]
    refine ⟨?_, ?_, ?_⟩
    · exact ((hms k (by simp)).map (fun a b h => by
        have := congrArg Prod.snd h
        simpa using this))
    · exact ih (List.nodup_cons.1 hnd).2 (fun k' hk' => hms k' (by simp [hk']))
    · intro x hx1 hx2
      rcases List.mem_map.1 hx1 with ⟨m, -, rfl⟩
      rcases List.mem_flatMap.1 hx2 with ⟨k', hk', hxk'⟩
      rcases List.mem_map.1 hxk' with ⟨m', -, heq⟩
      have hfst : k = k' := by
        have := congrArg Prod.fst heq
        simpa using this.symm
      exact (List.nodup_cons.1 hnd).1 (hfst ▸ hk')

/-- C9 (amended): the (groupKey, metric) projection of the output is, in
a grouped run, the first-occurrence key sequence with, inside each key,
the metric columns (in metricColumns order) that have at least one
retained value; in an ungrouped run, one pair (metric-name-as-key,
metric) per metric with at least one retained value; and the pairs are
duplicate-free whenever the metric column list is. -/
theorem c9_output_order :
    (∀ (rows : List Row) (cfg : ViewConfig) (schema : Schema) (g : String),
      resolveGroupBy (part001categoricalColumns schema cfg) cfg = some g →
      ((part001processDataForBoxplot rows cfg schema).map
        (fun rec => (rec.groupKey, rec.metric))) =
        (firstKeys (rows.map (part001groupKeyFn g))).flatMap (fun k =>
          ((part001numericColumns schema cfg).filter (fun m =>
            !((rows.filter (fun r => decide (part001groupKeyFn g r = k))).filterMap
              (fun r => toNum (r m))).isEmpty)).map (fun m => (k, m)))) ∧
    (∀ (rows : List Row) (cfg : ViewConfig) (schema : Schema),
      rows ≠ [] →
      resolveGroupBy (part001categoricalColumns schema cfg) cfg = none →
      ((part001processDataForBoxplot rows cfg schema).map
        (fun rec => (rec.groupKey, rec.metric))) =
        ((part001numericColumns schema cfg).filter (fun m =>
          !(rows.filterMap (fun r => toNum (r m))).isEmpty)).map
          (fun m => (JsVal.str m, m))) ∧
    (∀ (rows : List Row) (cfg : ViewConfig) (schema : Schema),
      (part001numericColumns schema cfg).Nodup →
      ((part001processDataForBoxplot rows cfg schema).map
        (fun rec => (rec.groupKey, rec.metric))).Nodup) := by
  have hgrouped : ∀ (rows : List Row) (cfg : ViewConfig) (schema : Schema) (g : String),
      resolveGroupBy (part001categoricalColumns schema cfg) cfg = some g →
      ((part001processDataForBoxplot rows cfg schema).map
        (fun rec => (rec.groupKey, rec.metric))) =
        (firstKeys (rows.map (part001groupKeyFn g))).flatMap (fun k =>
          ((part001numericColumns schema cfg).filter (fun m =>
            !((rows.filter (fun r => decide (part001groupKeyFn g r = k))).filterMap
              (fun r => toNum (r m))).isEmpty)).map (fun m => (k, m))) := by
    intro rows cfg schema g hres
    rw [part001processDataForBoxplot]
    by_cases hr : rows.length = 0
    · rcases List.length_eq_zero.1 hr with rfl
      simp [firstKeys]
    rw [if_neg hr, part001processRawData]
    by_cases hn : (part001numericColumns schema cfg).length = 0
    · rw [if_pos hn, List.length_eq_zero.1 hn]
      simp only [List.map_nil]
      symm
      rw [List.flatMap_eq_nil_iff]
      intro k _
      simp
    rw [if_neg hn, hres]
    simp only [groupByKey]
    rw [List.map_flatMap, List.flatMap_map]
    apply flatMap_congr_mem
    intro k hk
    rw [List.enum_eq_enumFrom]
    exact cellRecords_pairs (part001numericColumns schema cfg) 0
      (fun _ => k) (fun _ => k) (rows.filter (fun r => decide (part001groupKeyFn g r = k)))
  have hungrouped : ∀ (rows : List Row) (cfg : ViewConfig) (schema : Schema),
      rows ≠ [] →
      resolveGroupBy (part001categoricalColumns schema cfg) cfg = none →
      ((part001processDataForBoxplot rows cfg schema).map
        (fun rec => (rec.groupKey, rec.metric))) =
        ((part001numericColumns schema cfg).filter (fun m =>
          !(rows.filterMap (fun r => toNum (r m))).isEmpty)).map
          (fun m => (JsVal.str m, m)) := by
    intro rows cfg schema hrne hres
    rw [part001processDataForBoxplot,
      if_neg (fun h0 => hrne (List.length_eq_zero.1 h0)), part001processRawData]
    by_cases hn : (part001numericColumns schema cfg).length = 0
    · rw [if_pos hn, List.length_eq_zero.1 hn]
      simp
    rw [if_neg hn, hres, List.enum_eq_enumFrom]
    exact cellRecords_pairs (part001numericColumns schema cfg) 0
      (fun s => JsVal.str s) (fun s => JsVal.str s) rows
  refine ⟨hgrouped, hungrouped, ?_⟩
  intro rows cfg schema hnd
  by_cases hrne : rows = []
  · rcases hrne with rfl
    simp [part001processDataForBoxplot]
  rcases hres : resolveGroupBy (part001categoricalColumns schema cfg) cfg with _ | g
  · rw [hungrouped rows cfg schema hrne hres]
    refine List.Nodup.map ?_ (hnd.filter _)
    intro a b h
    have := congrArg Prod.snd h
    simpa using this
  · rw [hgrouped rows cfg schema g hres]
    exact nodup_keyed_pairs (firstKeys_nodup _) (fun k _ => hnd.filter _)

/-- C9 witness: the amended ordering statement applied to the grouped
two-row run, plus pair uniqueness there. -/
theorem c9_output_order_witness :
    (resolveGroupBy (part001categoricalColumns exSchemaG exCfgG) exCfgG = some "g") ∧
    (((part001processDataForBoxplot [exRowG0, exRowG5] exCfgG exSchemaG).map
      (fun rec => (rec.groupKey, rec.metric))) =
      (firstKeys ([exRowG0, exRowG5].map (part001groupKeyFn "g"))).flatMap (fun k =>
        ((part001numericColumns exSchemaG exCfgG).filter (fun m =>
          !(([exRowG0, exRowG5].filter
            (fun r => decide (part001groupKeyFn "g" r = k))).filterMap
            (fun r => toNum (r m))).isEmpty)).map (fun m => (k, m)))) ∧
    (((part001processDataForBoxplot [exRowG0, exRowG5] exCfgG exSchemaG).map
      (fun rec => (rec.groupKey, rec.metric))).Nodup) := by
  have hres : resolveGroupBy (part001categoricalColumns exSchemaG exCfgG) exCfgG =
      some "g" := by decide
  have hnd : (part001numericColumns exSchemaG exCfgG).Nodup := by decide
  exact ⟨hres,
    c9_output_order.1 [exRowG0, exRowG5] exCfgG exSchemaG "g" hres,
    c9_output_order.2.2 [exRowG0, exRowG5] exCfgG exSchemaG hnd⟩
